import Mathlib

/-!
# Verification of the fluxer.py entity / cog core

Shallow embedding of the fluxer.py SDK sources:
  * `src/fluxer/utils.py`      — snowflake timestamp codec (datetimes are
    modelled at exact millisecond precision as integers);
  * `src/fluxer/models/*.py`   — payload hydration (`from_data`) and the
    capability-bound operations (`send`, `reply`, `edit`, `delete`,
    `remove`, `clear`, `fetch_emojis`);
  * `src/fluxer/cog.py`        — handler discovery (`_discover_handlers`).

Python wire payloads are modelled as association lists of `String × Value`
(`Value` covers the JSON-ish values that occur: null, bool, int, str, list,
dict).  Python exceptions during hydration (KeyError for a missing required
key, ValueError/TypeError for a bad value) are modelled as
`Except HydrationError`; the spec's taxonomy calls these `MalformedPayload`.
Bound operations return `Except OpError`; `OpError.unbound` models the
RuntimeError raised when the transport back-reference is `None` (the
spec's `Unbound`).
-/

/-- A loosely-typed payload value, as found in a decoded wire payload. -/
inductive Value where
  | vNull : Value
  | vBool : Bool → Value
  | vInt : Int → Value
  | vStr : String → Value
  | vList : List Value → Value
  | vDict : List (String × Value) → Value

/-- An untyped payload mapping (a Python `dict[str, Any]`), modelled as an
association list whose keys are unique (Python dicts have unique keys). -/
abbrev Payload := List (String × Value)

/-- `data.get(k)` — lookup of a key in a payload, `none` when absent. -/
def Payload.get (d : Payload) (k : String) : Option Value :=
  (List.find? (fun p => p.1 == k) d).map (fun p => p.2)

/-- Python truthiness of a payload value (`if data.get(k):`): `None`, `False`,
`0`, `""`, `[]` and `{}` are falsy, everything else is truthy. -/
def truthy : Value → Bool
  | .vNull => false
  | .vBool b => b
  | .vInt n => n != 0
  | .vStr s => s != ""
  | .vList xs => !xs.isEmpty
  | .vDict entries => !entries.isEmpty

/-- Python `int(v)` on a payload value: an int stays itself, a string is
parsed (failure is `none`), a bool becomes 0/1, anything else is a
TypeError (`none`). -/
def toInt : Value → Option Int
  | .vInt n => some n
  | .vStr s => s.toInt?
  | .vBool b => some (cond b 1 0)
  | _ => none

/-- Hydration failure (the spec's `MalformedPayload`): a required key is
missing (Python KeyError) or a value fails to parse/convert (ValueError or
TypeError). -/
inductive HydrationError where
  | missingKey : String → HydrationError
  | badValue : String → HydrationError
deriving DecidableEq

/-- Failure of a capability-bound operation: the entity has no transport
handle (the spec's `Unbound`, Python RuntimeError), the response failed to
hydrate, or the transport itself failed (propagated unmodified). -/
inductive OpError where
  | unbound : String → OpError
  | hydration : HydrationError → OpError
  | transport : String → OpError

/-- `data[k]` — required-key access; a missing key is a hydration failure. -/
def reqKey (d : Payload) (k : String) : Except HydrationError Value :=
  match d.get k with
  | some v => .ok v
  | none => .error (.missingKey k)

/-- `int(data[k])` — required key parsed into the canonical integer type. -/
def reqInt (d : Payload) (k : String) : Except HydrationError Int :=
  match d.get k with
  | some v =>
    match toInt v with
    | some n => .ok n
    | none => .error (.badValue k)
  | none => .error (.missingKey k)

/-- `int(data[k]) if data.get(k) else None` — the source's idiom for optional
numeric ids: a missing key OR a present-but-falsy value yields `None`; a
truthy value is converted with `int(...)` (conversion failure is a
hydration failure). -/
def optTruthyInt (d : Payload) (k : String) : Except HydrationError (Option Int) :=
  match d.get k with
  | none => .ok none
  | some v =>
    if truthy v then
      match toInt v with
      | some n => .ok (some n)
      | none => .error (.badValue k)
    else .ok none

/-! ## Timestamp codec (`src/fluxer/utils.py`)

Datetimes are modelled as exact integer counts of milliseconds since the
Unix epoch (the Python code goes through `datetime`, which this embedding
abstracts at millisecond precision).  Python's `>>` on an `int` is a floor
shift, i.e. floor division by `2 ^ 22` (`Int.fdiv`); `<<` is multiplication
by `2 ^ 22`; Python ints are arbitrary precision, hence `Int`. -/

/-- Fluxer uses the same epoch as Discord: 2015-01-01T00:00:00Z, in ms. -/
def FLUXER_EPOCH : Int := 1420070400000

/-- `snowflake_to_datetime`: `(int(snowflake) >> 22) + FLUXER_EPOCH`, the
returned UTC datetime modelled as its millisecond timestamp. -/
def snowflake_to_datetime (snowflake : Int) : Int :=
  Int.fdiv snowflake (2 ^ 22) + FLUXER_EPOCH

/-- `datetime_to_snowflake`: `(millis(dt) - FLUXER_EPOCH) << 22`, taking the
datetime as its exact millisecond timestamp. -/
def datetime_to_snowflake (dt_ms : Int) : Int :=
  (dt_ms - FLUXER_EPOCH) * 2 ^ 22

/-! ## Entity model (`src/fluxer/models/*.py`)

Dataclass field order and hydration evaluation order follow the Python
source.  The transport back-reference `_http` is an `Option HTTPClient`
(`None` = unbound). -/

/-- `PartialEmoji` (src/fluxer/models/reaction.py): a partial emoji used in
reactions.  Fields `name`/`animated` are stored raw as in the source. -/
structure PartialEmoji where
  name : Option Value := none
  id : Option Int := none
  animated : Value := .vBool false

/-- `PartialEmoji.from_data`: `id=int(emoji_id) if emoji_id else None`,
`name=data.get("name")`, `animated=data.get("animated", False)`. -/
def PartialEmoji.from_data (data : Payload) : Except HydrationError PartialEmoji := do
  let pid ← optTruthyInt data "id"
  .ok { name := data.get "name", id := pid,
        animated := (data.get "animated").getD (.vBool false) }

/-- Modelled from the spec: `http.py` is not under `src/`.  §6 of the spec
lists the transport capability surface the core consumes; each operation
returns a success payload (or unit) or a transport-level failure, modelled
as `Except String`.  `get_message` accepts an id that may be numeric or
string-encoded (`int | str`), as does the user id of `delete_reaction`. -/
structure HTTPClient where
  send_message :
    Int → Option String → Option (List Value) → Option (List Value) →
      Option Value → Except String Payload
  get_message : Int → Sum Int String → Except String Payload
  edit_message : Int → Int → Option String → Except String Payload
  delete_message : Int → Int → Except String Unit
  delete_reaction : Int → Int → PartialEmoji → Sum Int String → Except String Unit
  delete_all_reactions_for_emoji : Int → Int → PartialEmoji → Except String Unit
  get_guild_emojis : Int → Except String (List Payload)

/-- Modelled from the spec: `embed.py` is not under `src/`.  §6 says embeds
travel as "embed dict-shapes"; `to_dict` produces that shape. -/
structure Embed where
  to_dict : Value

/-- Modelled from the spec: `user.py` is not under `src/`.  Per §3/§8 a User
hydrates from a payload whose required key is the canonical integer `id`
(`hydrate(payload).id == int(payload["id"])`), with optional profile fields
(`username`, `global_name` are the ones the in-scope sources read), and the
transport handle is forwarded (§4.2). -/
structure User where
  id : Int
  username : Option Value := none
  global_name : Option Value := none
  _http : Option HTTPClient := none

/-- Modelled from the spec: `User` hydration (see `User`).  The payload
value must be a mapping; its required `id` parses to an integer. -/
def User.from_data (v : Value) (http : Option HTTPClient) : Except HydrationError User := do
  match v with
  | .vDict d =>
    let i ← reqInt d "id"
    .ok { id := i, username := Payload.get d "username",
          global_name := Payload.get d "global_name", _http := http }
  | _ => .error (.badValue "user")

/-- `Message` (src/fluxer/models/message.py).  Raw-passthrough fields
(`content`, `timestamp`, `embeds`, `attachments`, `pinned`) keep their
payload values unconverted, as the source stores them. -/
structure Message where
  id : Int
  channel_id : Int
  content : Value := .vStr ""
  author : User
  timestamp : Value
  edited_timestamp : Option Value := none
  guild_id : Option Int := none
  embeds : Value := .vList []
  attachments : Value := .vList []
  mentions : List User := []
  pinned : Value := .vBool false
  _http : Option HTTPClient := none

/-- `mentions = [User.from_data(u, http) for u in data.get("mentions", [])]`:
an absent key yields `[]`; a list hydrates each element; a non-list value
cannot be iterated into user payloads and is a hydration failure. -/
def hydrateMentions (d : Payload) (http : Option HTTPClient) :
    Except HydrationError (List User) :=
  match d.get "mentions" with
  | none => .ok []
  | some (.vList xs) => xs.mapM (fun u => User.from_data u http)
  | some _ => .error (.badValue "mentions")

/-- `Message.from_data`: hydrates `author` first (`data["author"]` — a
missing key fails here), then `mentions`, then the constructor arguments in
source order (`int(data["id"])`, `int(data["channel_id"])`,
`data.get("content", "")`, `data["timestamp"]`, `data.get("edited_timestamp")`,
`int(data["guild_id"]) if data.get("guild_id") else None`, raw `embeds` /
`attachments` defaults, `data.get("pinned", False)`). -/
def Message.from_data (data : Payload) (http : Option HTTPClient) :
    Except HydrationError Message := do
  let av ← reqKey data "author"
  let author ← User.from_data av http
  let mentions ← hydrateMentions data http
  let i ← reqInt data "id"
  let cid ← reqInt data "channel_id"
  let ts ← reqKey data "timestamp"
  let gid ← optTruthyInt data "guild_id"
  .ok { id := i, channel_id := cid,
        content := (data.get "content").getD (.vStr ""),
        author := author, timestamp := ts,
        edited_timestamp := data.get "edited_timestamp",
        guild_id := gid,
        embeds := (data.get "embeds").getD (.vList []),
        attachments := (data.get "attachments").getD (.vList []),
        mentions := mentions,
        pinned := (data.get "pinned").getD (.vBool false),
        _http := http }

/-- `Message.reply`: unbound check, then
`self._http.send_message(self.channel_id, content=content)` and hydration
of the response. -/
def Message.reply (m : Message) (content : String) : Except OpError Message :=
  match m._http with
  | none => .error (.unbound "Message is not bound to an HTTP client")
  | some http => do
    let data ← (http.send_message m.channel_id (some content) none none none).mapError .transport
    (Message.from_data data (some http)).mapError .hydration

/-- `Message.edit`: unbound check, then
`self._http.edit_message(self.channel_id, self.id, content=content)` and
hydration of the response. -/
def Message.edit (m : Message) (content : Option String) : Except OpError Message :=
  match m._http with
  | none => .error (.unbound "Message is not bound to an HTTP client")
  | some http => do
    let data ← (http.edit_message m.channel_id m.id content).mapError .transport
    (Message.from_data data (some http)).mapError .hydration

/-- `Message.delete`: unbound check, then
`self._http.delete_message(self.channel_id, self.id)`. -/
def Message.delete (m : Message) : Except OpError Unit :=
  match m._http with
  | none => .error (.unbound "Message is not bound to an HTTP client")
  | some http => (http.delete_message m.channel_id m.id).mapError .transport

/-- `Channel` (src/fluxer/models/channel.py). -/
structure Channel where
  id : Int
  type : Value
  name : Option Value := none
  guild_id : Option Int := none
  position : Option Value := none
  topic : Option Value := none
  nsfw : Value := .vBool false
  parent_id : Option Int := none
  _http : Option HTTPClient := none

/-- `Channel.from_data`: required `int(data["id"])` and raw `data["type"]`;
optional ids via the truthiness idiom; the rest raw with source defaults. -/
def Channel.from_data (data : Payload) (http : Option HTTPClient) :
    Except HydrationError Channel := do
  let i ← reqInt data "id"
  let ty ← reqKey data "type"
  let gid ← optTruthyInt data "guild_id"
  let pid ← optTruthyInt data "parent_id"
  .ok { id := i, type := ty, name := data.get "name", guild_id := gid,
        position := data.get "position", topic := data.get "topic",
        nsfw := (data.get "nsfw").getD (.vBool false), parent_id := pid,
        _http := http }

/-- `Channel.send`: unbound check first; `embed` (truthy when present) wins
over `embeds` (an empty list is falsy, leaving `embed_list = None`); then
`self._http.send_message(...)` and hydration of the response. -/
def Channel.send (ch : Channel) (content : Option String) (embed : Option Embed)
    (embeds : Option (List Embed)) (files : Option (List Value))
    (message_reference : Option Value) : Except OpError Message :=
  match ch._http with
  | none => .error (.unbound "Channel is not bound to an HTTP client")
  | some http =>
    let embed_list : Option (List Value) :=
      match embed with
      | some e => some [e.to_dict]
      | none =>
        match embeds with
        | some es => if es.isEmpty then none else some (es.map (fun e => e.to_dict))
        | none => none
    do
      let data ← (http.send_message ch.id content embed_list files message_reference).mapError .transport
      (Message.from_data data (some http)).mapError .hydration

/-- `Channel.fetch_message`: unbound check, then
`self._http.get_message(self.id, message_id)` and hydration. -/
def Channel.fetch_message (ch : Channel) (message_id : Sum Int String) :
    Except OpError Message :=
  match ch._http with
  | none => .error (.unbound "Channel is not bound to an HTTP client")
  | some http => do
    let data ← (http.get_message ch.id message_id).mapError .transport
    (Message.from_data data (some http)).mapError .hydration

/-- `Guild` (src/fluxer/models/guild.py). -/
structure Guild where
  id : Int
  name : Option Value := none
  icon : Option Value := none
  owner_id : Option Int := none
  member_count : Option Value := none
  unavailable : Value := .vBool false
  _http : Option HTTPClient := none

/-- `Guild.from_data`: required `int(data["id"])`; `owner_id` via the
truthiness idiom; the rest raw with source defaults. -/
def Guild.from_data (data : Payload) (http : Option HTTPClient) :
    Except HydrationError Guild := do
  let i ← reqInt data "id"
  let oid ← optTruthyInt data "owner_id"
  .ok { id := i, name := data.get "name", icon := data.get "icon",
        owner_id := oid, member_count := data.get "member_count",
        unavailable := (data.get "unavailable").getD (.vBool false),
        _http := http }

/-- Modelled from the spec: `emoji.py` is not under `src/`.  §4.3: the
binding layer injects the guild's own id into each emoji because the
transport payload may omit `guild_id`.  Hydration takes the untyped payload,
the forwarded transport handle, and the injected guild id; the stored
`guild_id` is the injected value when one is supplied, else the payload's
own optional `guild_id`. -/
structure Emoji where
  id : Int
  name : Option Value := none
  animated : Value := .vBool false
  guild_id : Option Int := none
  _http : Option HTTPClient := none

/-- Modelled from the spec: `Emoji` hydration (see `Emoji`). -/
def Emoji.from_data (data : Payload) (http : Option HTTPClient)
    (guild_id : Option Int) : Except HydrationError Emoji := do
  let i ← reqInt data "id"
  let gid ← match guild_id with
    | some g => Except.ok (some g)
    | none => optTruthyInt data "guild_id"
  .ok { id := i, name := data.get "name",
        animated := (data.get "animated").getD (.vBool false),
        guild_id := gid, _http := http }

/-- `Guild.fetch_emojis`: unbound check, then
`self._http.get_guild_emojis(self.id)` and per-element hydration, passing
`guild_id=self.id` "since API doesn't always return it". -/
def Guild.fetch_emojis (g : Guild) : Except OpError (List Emoji) :=
  match g._http with
  | none => .error (.unbound "Cannot fetch emojis without HTTPClient")
  | some http => do
    let data ← (http.get_guild_emojis g.id).mapError .transport
    data.mapM (fun ed => (Emoji.from_data ed (some http) (some g.id)).mapError .hydration)

/-- The `user` argument of `Reaction.remove`: `User | int | str`. -/
inductive UserRef where
  | user : User → UserRef
  | intId : Int → UserRef
  | strId : String → UserRef

/-- `user.id if isinstance(user, User) else user`. -/
def UserRef.resolve : UserRef → Sum Int String
  | .user u => .inl u.id
  | .intId i => .inl i
  | .strId s => .inr s

/-- `Reaction` (src/fluxer/models/reaction.py): `count`/`me` stored raw. -/
structure Reaction where
  emoji : PartialEmoji
  count : Value := .vInt 0
  me : Value := .vBool false
  _message : Option Message := none
  _http : Option HTTPClient := none

/-- `Reaction.from_data`: `data["emoji"]` is required and must be a mapping
for `PartialEmoji.from_data`; `count`/`me` default raw. -/
def Reaction.from_data (data : Payload) (http : Option HTTPClient)
    (message : Option Message) : Except HydrationError Reaction := do
  let ev ← reqKey data "emoji"
  let emoji ← match ev with
    | .vDict dd => PartialEmoji.from_data dd
    | _ => .error (.badValue "emoji")
  .ok { emoji := emoji, count := (data.get "count").getD (.vInt 0),
        me := (data.get "me").getD (.vBool false),
        _message := message, _http := http }

/-- `Reaction.remove`: `if not self._http or not self._message: raise`;
otherwise delegate to `delete_reaction` scoped by the attached message. -/
def Reaction.remove (r : Reaction) (user : UserRef) : Except OpError Unit :=
  match r._http, r._message with
  | some http, some msg =>
    (http.delete_reaction msg.channel_id msg.id r.emoji user.resolve).mapError .transport
  | _, _ => .error (.unbound "Cannot remove reaction without HTTPClient and Message")

/-- `Reaction.clear`: same unbound guard, delegating to
`delete_all_reactions_for_emoji`. -/
def Reaction.clear (r : Reaction) : Except OpError Unit :=
  match r._http, r._message with
  | some http, some msg =>
    (http.delete_all_reactions_for_emoji msg.channel_id msg.id r.emoji).mapError .transport
  | _, _ => .error (.unbound "Cannot clear reaction without HTTPClient and Message")

/-! ## Handler registry (`src/fluxer/cog.py`)

A cog's owning class is modelled as its list of method declarations in
class-body order.  `Cog.command(name)` / `Cog.listener(name)` set the hidden
markers `__cog_command__` / `__cog_command_name__` (resp. listener) on the
function; `MethodDecl` records exactly that tag state per method.
`_discover_handlers` then iterates `dir(self)`: CPython documents that
`dir` returns the names **sorted alphabetically**, and the class dict keeps
one entry per name (the last `def` wins), so declaration order is not
observable during discovery. -/

/-- `name.startswith("_")` for a member name: the first character is an
underscore.  (Stated on `String.data` so that it evaluates by kernel
reduction; a one-character prefix test is exactly a first-character test.) -/
def isPrivateName (n : String) : Bool :=
  match n.data with
  | c :: _ => c == '_'
  | [] => false

/-- One method of a cog class with its declarative tag state. -/
structure MethodDecl where
  name : String
  isCommand : Bool := false
  commandName : Option String := none
  isListener : Bool := false
  listenerName : Option String := none
deriving DecidableEq

/-- A cog class body: its method declarations in declaration order. -/
abbrev CogClass := List MethodDecl

/-- Lexicographic (code-point) order on character lists — how Python
compares strings when `sorted` builds the `dir()` result. -/
def pyCharListLe : List Char → List Char → Bool
  | [], _ => true
  | _ :: _, [] => false
  | c₁ :: r₁, c₂ :: r₂ =>
    if c₁ = c₂ then pyCharListLe r₁ r₂ else decide (c₁ < c₂)

/-- `a <= b` on Python strings: code-point lexicographic comparison. -/
def pyStrLe (a b : String) : Bool :=
  pyCharListLe a.data b.data

/-- `dir(self)`: the member names, one per name, sorted alphabetically
(CPython documents `dir` as returning the names sorted). -/
def dirNames (methods : CogClass) : List String :=
  ((methods.map (fun m => m.name)).dedup).insertionSort (fun a b => pyStrLe a b = true)

/-- `getattr(self, n)`: the class dict holds the **last** declaration of a
name, so lookup resolves to the latest method with that name. -/
def getMethod (methods : CogClass) (n : String) : Option MethodDecl :=
  methods.reverse.find? (fun m => m.name == n)

/-- Python `d[k] = v` on a dict: replace in place when the key exists,
append at the end otherwise. -/
def dictInsert {α : Type} (d : List (String × α)) (k : String) (v : α) :
    List (String × α) :=
  match d with
  | [] => [(k, v)]
  | p :: rest => if p.1 == k then (k, v) :: rest else p :: dictInsert rest k v

/-- Python `d.get(k)` on a dict: the value of the (unique) entry for `k`. -/
def dictGet {α : Type} (d : List (String × α)) (k : String) : Option α :=
  match d with
  | [] => none
  | p :: rest => if p.1 == k then some p.2 else dictGet rest k

/-- The two handler indices a `Cog` builds at construction:
`self._commands : dict[str, handler]` and
`self._listeners : dict[str, list[handler]]`.  A handler is identified by
its method name (`getattr` resolves a name to one bound method). -/
structure Cog where
  commands : List (String × String) := []
  listeners : List (String × List String) := []
deriving DecidableEq

/-- One iteration of the `for name in dir(self)` loop of
`_discover_handlers`: skip names starting with `"_"`; if the resolved
method is tagged as a command, write it into `_commands` under its explicit
name or the member name (plain dict assignment — overwrite); if tagged as a
listener, append it to the `_listeners` entry of its event name (creating
`[]` first when absent). -/
def discoverStep (methods : CogClass) (acc : Cog) (n : String) : Cog :=
  if isPrivateName n then acc
  else
    match getMethod methods n with
    | none => acc
    | some m =>
      let acc1 :=
        if m.isCommand then
          { acc with commands := dictInsert acc.commands (m.commandName.getD n) n }
        else acc
      if m.isListener then
        let ev := m.listenerName.getD n
        { acc1 with listeners :=
            dictInsert acc1.listeners ev ((dictGet acc1.listeners ev).getD [] ++ [n]) }
      else acc1

/-- `Cog._discover_handlers`: fold the discovery step over `dir(self)`,
starting from the empty indices set up in `__init__`. -/
def discover_handlers (methods : CogClass) : Cog :=
  (dirNames methods).foldl (discoverStep methods) {}

/-- A member name that the discovery loop registers as a command under key
`c`: not underscore-prefixed, resolving to a method tagged as a command
whose effective command name (`__cog_command_name__` or the member name)
is `c`. -/
def eligibleCommand (methods : CogClass) (c : String) (n : String) : Bool :=
  !isPrivateName n &&
    (match getMethod methods n with
     | some m => m.isCommand && (m.commandName.getD n == c)
     | none => false)

/-- A member name that the discovery loop appends as a listener for event
`e`: not underscore-prefixed, resolving to a method tagged as a listener
whose effective event name is `e`. -/
def eligibleListener (methods : CogClass) (e : String) (n : String) : Bool :=
  !isPrivateName n &&
    (match getMethod methods n with
     | some m => m.isListener && (m.listenerName.getD n == e)
     | none => false)

/-! ## Discovery characterization lemmas -/

theorem dictGet_dictInsert {α : Type} (d : List (String × α)) (k c : String) (v : α) :
    dictGet (dictInsert d k v) c = if k == c then some v else dictGet d c := by
  induction d with
  | nil =>
    by_cases h : k = c
    · simp [dictInsert, dictGet, h]
    · simp [dictInsert, dictGet, h]
  | cons p rest ih =>
    by_cases hpk : p.1 = k
    · by_cases hkc : k = c
      · simp [dictInsert, dictGet, hpk, hkc]
      · simp [dictInsert, dictGet, hpk, hkc]
    · by_cases hpc : p.1 = c
      · have hkc : ¬ k = c := fun h => hpk (by rw [hpc, h])
        have hck : ¬ c = k := fun h => hkc h.symm
        simp [dictInsert, dictGet, hpk, hpc, hkc, hck]
      · simp [dictInsert, dictGet, hpk, hpc, ih]

theorem discoverStep_commands (ms : CogClass) (acc : Cog) (n c : String) :
    dictGet (discoverStep ms acc n).commands c =
      if eligibleCommand ms c n then some n else dictGet acc.commands c := by
  unfold discoverStep eligibleCommand
  by_cases h1 : isPrivateName n
  · simp [h1]
  · simp only [h1, Bool.not_false, Bool.true_and, if_neg, Bool.false_eq_true,
      not_false_iff]
    cases hg : getMethod ms n with
    | none => simp
    | some m =>
      cases hc : m.isCommand with
      | false =>
        cases hl : m.isListener with
        | false => simp [hc, hl]
        | true => simp [hc, hl]
      | true =>
        cases hl : m.isListener with
        | false => simp [hc, hl, dictGet_dictInsert]
        | true => simp [hc, hl, dictGet_dictInsert]

theorem discoverStep_listeners (ms : CogClass) (acc : Cog) (n e : String) :
    (dictGet (discoverStep ms acc n).listeners e).getD [] =
      (dictGet acc.listeners e).getD [] ++
        (if eligibleListener ms e n then [n] else []) := by
  unfold discoverStep eligibleListener
  by_cases h1 : isPrivateName n
  · simp [h1]
  · simp only [h1, Bool.not_false, Bool.true_and, if_neg, Bool.false_eq_true,
      not_false_iff]
    cases hg : getMethod ms n with
    | none => simp
    | some m =>
      cases hl : m.isListener with
      | false =>
        cases hc : m.isCommand with
        | false => simp [hc, hl]
        | true => simp [hc, hl]
      | true =>
        cases hc : m.isCommand with
        | false =>
          by_cases hev : m.listenerName.getD n = e
          · simp [hc, hl, hev, dictGet_dictInsert]
          · simp [hc, hl, hev, dictGet_dictInsert]
        | true =>
          by_cases hev : m.listenerName.getD n = e
          · simp [hc, hl, hev, dictGet_dictInsert]
          · simp [hc, hl, hev, dictGet_dictInsert]

theorem foldl_commands_get (ms : CogClass) (c : String) (names : List String)
    (acc : Cog) :
    dictGet ((names.foldl (discoverStep ms) acc)).commands c =
      names.foldl (fun o x => if eligibleCommand ms c x then some x else o)
        (dictGet acc.commands c) := by
  induction names generalizing acc with
  | nil => rfl
  | cons n ns ih => simp [List.foldl_cons, ih, discoverStep_commands]

theorem getLast?_cons_form {α : Type} (a : α) (l : List α) :
    (a :: l).getLast? =
      match l.getLast? with
      | some b => some b
      | none => some a := by
  cases l with
  | nil => rfl
  | cons x xs =>
    rw [List.getLast?_cons_cons]
    cases h : (x :: xs).getLast? with
    | some b => rfl
    | none => exact absurd (List.getLast?_eq_none_iff.mp h) (by simp)

theorem foldl_lastWrite {α : Type} (f : α → Bool) (names : List α)
    (init : Option α) :
    names.foldl (fun o x => if f x then some x else o) init =
      match (names.filter f).getLast? with
      | some h => some h
      | none => init := by
  induction names generalizing init with
  | nil => rfl
  | cons n ns ih =>
    by_cases h : f n
    · rw [List.foldl_cons, ih, List.filter_cons_of_pos h, getLast?_cons_form]
      cases hl : (ns.filter f).getLast? <;> simp [h]
    · rw [List.foldl_cons, ih, List.filter_cons_of_neg (by simp [h])]
      simp [h]

theorem commands_characterization (ms : CogClass) (c : String) :
    dictGet (discover_handlers ms).commands c =
      ((dirNames ms).filter (eligibleCommand ms c)).getLast? := by
  unfold discover_handlers
  rw [foldl_commands_get, foldl_lastWrite]
  cases ((dirNames ms).filter (eligibleCommand ms c)).getLast? <;> rfl

theorem foldl_listeners_get (ms : CogClass) (e : String) (names : List String)
    (acc : Cog) :
    (dictGet ((names.foldl (discoverStep ms) acc)).listeners e).getD [] =
      (dictGet acc.listeners e).getD [] ++ names.filter (eligibleListener ms e) := by
  induction names generalizing acc with
  | nil => simp
  | cons n ns ih =>
    rw [List.foldl_cons, ih, discoverStep_listeners, List.filter_cons]
    by_cases h : eligibleListener ms e n
    · simp [h]
    · simp [h]

theorem listeners_characterization (ms : CogClass) (e : String) :
    (dictGet (discover_handlers ms).listeners e).getD [] =
      (dirNames ms).filter (eligibleListener ms e) := by
  unfold discover_handlers
  rw [foldl_listeners_get]
  rfl

theorem getLast?_mem {α : Type} {l : List α} {a : α} (h : l.getLast? = some a) :
    a ∈ l := by
  induction l with
  | nil => simp at h
  | cons x xs ih =>
    rw [getLast?_cons_form] at h
    cases hl : xs.getLast? with
    | some b =>
      rw [hl] at h
      injection h with h
      exact List.mem_cons_of_mem _ (ih (by rw [hl, h]))
    | none =>
      rw [hl] at h
      injection h with h
      exact h ▸ List.mem_cons_self x xs

/-! ## Claims about the timestamp codec -/

/-- C5: for all identifiers `m ≤ n`, the identifier-to-instant conversion is
monotonically non-decreasing: `snowflake_to_datetime m ≤
snowflake_to_datetime n` (snowflake ordering property). -/
theorem snowflake_to_datetime_monotone (m n : Int) (h : m ≤ n) :
    snowflake_to_datetime m ≤ snowflake_to_datetime n := by
  unfold snowflake_to_datetime
  rw [Int.fdiv_eq_ediv m (by norm_num), Int.fdiv_eq_ediv n (by norm_num)]
  exact add_le_add_right (Int.ediv_le_ediv (by norm_num) h) _

theorem snowflake_to_datetime_monotone_witness :
    (175928847299117063 : Int) ≤ 175928847299117064 ∧
      snowflake_to_datetime 175928847299117063 ≤
        snowflake_to_datetime 175928847299117064 :=
  ⟨by norm_num,
   snowflake_to_datetime_monotone 175928847299117063 175928847299117064 (by norm_num)⟩

/-- C6: the codec round-trip recovers the instant exactly at millisecond
precision: `snowflake_to_datetime (datetime_to_snowflake t) = t` for every
instant `t` (modelled as an exact millisecond count; Python ints are
arbitrary precision, so the `<< 22` never overflows). -/
theorem codec_roundtrip (t : Int) :
    snowflake_to_datetime (datetime_to_snowflake t) = t := by
  unfold snowflake_to_datetime datetime_to_snowflake
  rw [Int.mul_fdiv_cancel _ (by norm_num)]
  ring

/-! ## Claims about the handler registry -/

/-- C1 counterexample: a cog class declaring, in this order, methods
`zebra` then `alpha`, both tagged as listeners for `"on_message"`, registers
the pair in **alphabetical** member-name order `["alpha", "zebra"]`, which
differs from the declaration order `["zebra", "alpha"]` — refuting the
claim that the registered order equals declaration order. -/
theorem listener_declaration_order_counterexample :
    (dictGet (discover_handlers
        [{ name := "zebra", isListener := true, listenerName := some "on_message" },
         { name := "alpha", isListener := true, listenerName := some "on_message" }]).listeners
      "on_message").getD [] = ["alpha", "zebra"] ∧
    (["alpha", "zebra"] : List String) ≠ ["zebra", "alpha"] := by
  constructor
  · decide
  · decide

/-- C1 (amended): a cog class with several methods tagged as listeners for
the same event name registers all of them under that event name, and the
order of the registered list is the `dir()` traversal order — the
**alphabetical** order of the member names — not the order of declaration
in the class body. -/
theorem listener_registration_alphabetical (ms : CogClass) (e : String) :
    (dictGet (discover_handlers ms).listeners e).getD [] =
      (dirNames ms).filter (eligibleListener ms e) ∧
    ∀ m ∈ ms, isPrivateName m.name = false → getMethod ms m.name = some m →
      m.isListener = true → m.listenerName.getD m.name = e →
      m.name ∈ (dictGet (discover_handlers ms).listeners e).getD [] := by
  refine ⟨listeners_characterization ms e, ?_⟩
  intro m hm h1 h2 h3 h4
  rw [listeners_characterization, List.mem_filter]
  constructor
  · unfold dirNames
    have hmem : m.name ∈ (ms.map (fun m => m.name)).dedup := by
      rw [List.mem_dedup]
      exact List.mem_map_of_mem _ hm
    exact ((List.perm_insertionSort _ _).mem_iff).mpr hmem
  · unfold eligibleListener
    rw [h2]
    simp [h1, h3, h4]

theorem listener_registration_alphabetical_witness :
    "alpha" ∈ (dictGet (discover_handlers
        [{ name := "zebra", isListener := true, listenerName := some "on_message" },
         { name := "alpha", isListener := true, listenerName := some "on_message" }]).listeners
      "on_message").getD [] :=
  (listener_registration_alphabetical
      [{ name := "zebra", isListener := true, listenerName := some "on_message" },
       { name := "alpha", isListener := true, listenerName := some "on_message" }]
      "on_message").2
    { name := "alpha", isListener := true, listenerName := some "on_message" }
    (by decide) rfl (by decide) rfl rfl

/-- C4: within one cog the command index keeps only the **last**-discovered
method for each command name (plain dict assignment overwrites), while the
listener index keeps **all** discovered methods for each event name in
discovery order (append) — for every cog construction. -/
theorem duplicate_command_overwrite_listener_append (ms : CogClass) (c e : String) :
    dictGet (discover_handlers ms).commands c =
      ((dirNames ms).filter (eligibleCommand ms c)).getLast? ∧
    (dictGet (discover_handlers ms).listeners e).getD [] =
      (dirNames ms).filter (eligibleListener ms e) :=
  ⟨commands_characterization ms c, listeners_characterization ms e⟩

/-- C7: a cog method tagged as a command is indexed only under its
effective name — the explicit tag name when one was supplied, else the
member's own name.  Concretely: (a) any entry of the command index points
to a method whose effective command name is that entry's key, so a method
tagged with explicit name `"hi"` is never indexed under its own (different)
name; (b) a one-method cog tagged `command(name="hi")` is retrievable under
`"hi"` and (when the method name differs from `"hi"`) not under the method
name; a tagged command with no explicit name is indexed under the method's
own name. -/
theorem command_explicit_name_indexing :
    (∀ (ms : CogClass) (k h : String),
        dictGet (discover_handlers ms).commands k = some h →
        ∃ d, getMethod ms h = some d ∧ d.isCommand = true ∧
          d.commandName.getD h = k) ∧
    (∀ n : String, isPrivateName n = false →
        dictGet (discover_handlers
          [{ name := n, isCommand := true, commandName := some "hi" }]).commands
            "hi" = some n ∧
        (n ≠ "hi" → dictGet (discover_handlers
          [{ name := n, isCommand := true, commandName := some "hi" }]).commands
            n = none) ∧
        dictGet (discover_handlers
          [{ name := n, isCommand := true }]).commands n = some n) := by
  constructor
  · intro ms k h hk
    rw [commands_characterization] at hk
    have hmem := getLast?_mem hk
    have helig := (List.mem_filter.mp hmem).2
    unfold eligibleCommand at helig
    cases hg : getMethod ms h with
    | none => rw [hg] at helig; simp at helig
    | some d =>
      rw [hg] at helig
      simp only [Bool.and_eq_true, beq_iff_eq] at helig
      exact ⟨d, rfl, helig.2.1, helig.2.2⟩
  · intro n hn
    have hdir : ∀ (m : MethodDecl), m.name = n → dirNames [m] = [n] := by
      intro m hm
      simp [dirNames, hm, List.dedup_cons_of_not_mem, List.insertionSort,
        List.orderedInsert]
    have hget : ∀ (m : MethodDecl), m.name = n → getMethod [m] n = some m := by
      intro m hm
      simp [getMethod, List.find?, hm]
    have hdirA := hdir { name := n, isCommand := true, commandName := some "hi" } rfl
    have hgetA := hget { name := n, isCommand := true, commandName := some "hi" } rfl
    have hdirB := hdir { name := n, isCommand := true } rfl
    have hgetB := hget { name := n, isCommand := true } rfl
    refine ⟨?_, ?_, ?_⟩
    · rw [show discover_handlers [{ name := n, isCommand := true, commandName := some "hi" }] =
          discoverStep [{ name := n, isCommand := true, commandName := some "hi" }]
            {} n from by rw [discover_handlers, hdirA]; rfl]
      simp [discoverStep, hn, hgetA, dictInsert, dictGet]
    · intro hne
      rw [show discover_handlers [{ name := n, isCommand := true, commandName := some "hi" }] =
          discoverStep [{ name := n, isCommand := true, commandName := some "hi" }]
            {} n from by rw [discover_handlers, hdirA]; rfl]
      have : ¬ ("hi" : String) = n := fun h => hne h.symm
      simp [discoverStep, hn, hgetA, dictInsert, dictGet, this]
    · rw [show discover_handlers [{ name := n, isCommand := true }] =
          discoverStep [{ name := n, isCommand := true }] {} n from by
            rw [discover_handlers, hdirB]; rfl]
      simp [discoverStep, hn, hgetB, dictInsert, dictGet]

theorem command_explicit_name_indexing_witness :
    dictGet (discover_handlers
      [{ name := "greet", isCommand := true, commandName := some "hi" }]).commands
        "hi" = some "greet" ∧
    dictGet (discover_handlers
      [{ name := "greet", isCommand := true, commandName := some "hi" }]).commands
        "greet" = none :=
  ⟨(command_explicit_name_indexing.2 "greet" rfl).1,
   (command_explicit_name_indexing.2 "greet" rfl).2.1 (by decide)⟩

/-- C10: handler discovery skips every member whose name starts with an
underscore — an underscore-named method never appears as a registered
handler, in the command index or in any listener list, whatever tags it
carries. -/
theorem underscore_members_never_registered (ms : CogClass) (n : String)
    (h : isPrivateName n = true) :
    (∀ k, dictGet (discover_handlers ms).commands k ≠ some n) ∧
    (∀ e, n ∉ (dictGet (discover_handlers ms).listeners e).getD []) := by
  constructor
  · intro k hk
    rw [commands_characterization] at hk
    have helig := (List.mem_filter.mp (getLast?_mem hk)).2
    unfold eligibleCommand at helig
    rw [h] at helig
    simp at helig
  · intro e hmem
    rw [listeners_characterization] at hmem
    have helig := (List.mem_filter.mp hmem).2
    unfold eligibleListener at helig
    rw [h] at helig
    simp at helig

theorem underscore_members_never_registered_witness :
    dictGet (discover_handlers
      [{ name := "_hidden", isCommand := true, commandName := some "boom",
         isListener := true, listenerName := some "on_message" }]).commands
        "boom" ≠ some "_hidden" ∧
    "_hidden" ∉ (dictGet (discover_handlers
      [{ name := "_hidden", isCommand := true, commandName := some "boom",
         isListener := true, listenerName := some "on_message" }]).listeners
        "on_message").getD [] :=
  ⟨(underscore_members_never_registered _ "_hidden" rfl).1 "boom",
   (underscore_members_never_registered _ "_hidden" rfl).2 "on_message"⟩

/-! ## Claims about hydration -/

theorem except_bind_ok {ε α β : Type} {e : Except ε α} {f : α → Except ε β}
    {b : β} (h : (e >>= f) = .ok b) : ∃ a, e = .ok a ∧ f a = .ok b := by
  cases e with
  | error err => simp [Bind.bind, Except.bind] at h
  | ok a => exact ⟨a, rfl, h⟩

theorem mapError_ok {ε ε' α : Type} {x : Except ε α} {f : ε → ε'} {b : α}
    (h : x.mapError f = .ok b) : x = .ok b := by
  cases x with
  | error e => simp [Except.mapError] at h
  | ok a => simp [Except.mapError] at h; rw [h]

/-- C3: a Message payload lacking the `author` key fails hydration with the
missing-key (`MalformedPayload`) error for `"author"`; and whenever a
payload lacking the `pinned` key hydrates successfully, the resulting
Message has `pinned = False`. -/
theorem message_author_required_pinned_defaults :
    (∀ (d : Payload) (http : Option HTTPClient), d.get "author" = none →
        Message.from_data d http = .error (.missingKey "author")) ∧
    (∀ (d : Payload) (http : Option HTTPClient) (m : Message),
        Message.from_data d http = .ok m → d.get "pinned" = none →
        m.pinned = .vBool false) := by
  constructor
  · intro d http hget
    unfold Message.from_data
    rw [show reqKey d "author" = .error (.missingKey "author") from by
      simp [reqKey, hget]]
    rfl
  · intro d http m hok hpin
    unfold Message.from_data at hok
    obtain ⟨av, h1, hok⟩ := except_bind_ok hok
    obtain ⟨author, h2, hok⟩ := except_bind_ok hok
    obtain ⟨mentions, h3, hok⟩ := except_bind_ok hok
    obtain ⟨i, h4, hok⟩ := except_bind_ok hok
    obtain ⟨cid, h5, hok⟩ := except_bind_ok hok
    obtain ⟨ts, h6, hok⟩ := except_bind_ok hok
    obtain ⟨gid, h7, hok⟩ := except_bind_ok hok
    injection hok with hok
    rw [← hok]
    simp [hpin]

theorem message_author_required_pinned_defaults_witness :
    Message.from_data [("id", .vInt 1)] none = .error (.missingKey "author") ∧
    Message.from_data
        [("id", .vInt 7), ("channel_id", .vInt 3),
         ("author", .vDict [("id", .vInt 1)]), ("timestamp", .vStr "2016-01-01")]
        none =
      .ok { id := 7, channel_id := 3, author := { id := 1 },
            timestamp := .vStr "2016-01-01" } ∧
    Message.pinned
        { id := 7, channel_id := 3, author := { id := 1 },
          timestamp := .vStr "2016-01-01" } = .vBool false :=
  ⟨message_author_required_pinned_defaults.1 [("id", .vInt 1)] none rfl, rfl,
   message_author_required_pinned_defaults.2
     [("id", .vInt 7), ("channel_id", .vInt 3),
      ("author", .vDict [("id", .vInt 1)]), ("timestamp", .vStr "2016-01-01")]
     none
     { id := 7, channel_id := 3, author := { id := 1 },
       timestamp := .vStr "2016-01-01" }
     rfl rfl⟩

theorem optTruthyInt_falsy (d : Payload) (k : String) (v : Value)
    (hget : d.get k = some v) (hf : truthy v = false) :
    optTruthyInt d k = .ok none := by
  unfold optTruthyInt
  rw [hget]
  simp [hf]

/-- C9: in every hydration that parses an optional numeric-id key with the
`int(data[k]) if data.get(k) else None` idiom (Channel.guild_id,
Channel.parent_id, Guild.owner_id, Message.guild_id, PartialEmoji.id), a
key that is *present but falsy* — the integer `0` or the empty string —
produces `None`, exactly as if the key were absent: a literal zero
identifier is never preserved as `0`. -/
theorem falsy_optional_ids_normalize
    (d : Payload) (http : Option HTTPClient) (v : Value)
    (hv : v = .vInt 0 ∨ v = .vStr "") :
    (∀ ch, d.get "guild_id" = some v → Channel.from_data d http = .ok ch →
      ch.guild_id = none) ∧
    (∀ ch, d.get "parent_id" = some v → Channel.from_data d http = .ok ch →
      ch.parent_id = none) ∧
    (∀ g, d.get "owner_id" = some v → Guild.from_data d http = .ok g →
      g.owner_id = none) ∧
    (∀ m, d.get "guild_id" = some v → Message.from_data d http = .ok m →
      m.guild_id = none) ∧
    (∀ pe, d.get "id" = some v → PartialEmoji.from_data d = .ok pe →
      pe.id = none) := by
  have hf : truthy v = false := by
    rcases hv with h | h <;> rw [h] <;> rfl
  refine ⟨?_, ?_, ?_, ?_, ?_⟩
  · intro ch hget hok
    unfold Channel.from_data at hok
    obtain ⟨i, h1, hok⟩ := except_bind_ok hok
    obtain ⟨ty, h2, hok⟩ := except_bind_ok hok
    obtain ⟨gid, h3, hok⟩ := except_bind_ok hok
    obtain ⟨pid, h4, hok⟩ := except_bind_ok hok
    rw [optTruthyInt_falsy d "guild_id" v hget hf] at h3
    injection h3 with h3
    injection hok with hok
    rw [← hok, ← h3]
  · intro ch hget hok
    unfold Channel.from_data at hok
    obtain ⟨i, h1, hok⟩ := except_bind_ok hok
    obtain ⟨ty, h2, hok⟩ := except_bind_ok hok
    obtain ⟨gid, h3, hok⟩ := except_bind_ok hok
    obtain ⟨pid, h4, hok⟩ := except_bind_ok hok
    rw [optTruthyInt_falsy d "parent_id" v hget hf] at h4
    injection h4 with h4
    injection hok with hok
    rw [← hok, ← h4]
  · intro g hget hok
    unfold Guild.from_data at hok
    obtain ⟨i, h1, hok⟩ := except_bind_ok hok
    obtain ⟨oid, h2, hok⟩ := except_bind_ok hok
    rw [optTruthyInt_falsy d "owner_id" v hget hf] at h2
    injection h2 with h2
    injection hok with hok
    rw [← hok, ← h2]
  · intro m hget hok
    unfold Message.from_data at hok
    obtain ⟨av, h1, hok⟩ := except_bind_ok hok
    obtain ⟨author, h2, hok⟩ := except_bind_ok hok
    obtain ⟨mentions, h3, hok⟩ := except_bind_ok hok
    obtain ⟨i, h4, hok⟩ := except_bind_ok hok
    obtain ⟨cid, h5, hok⟩ := except_bind_ok hok
    obtain ⟨ts, h6, hok⟩ := except_bind_ok hok
    obtain ⟨gid, h7, hok⟩ := except_bind_ok hok
    rw [optTruthyInt_falsy d "guild_id" v hget hf] at h7
    injection h7 with h7
    injection hok with hok
    rw [← hok, ← h7]
  · intro pe hget hok
    unfold PartialEmoji.from_data at hok
    obtain ⟨pid, h1, hok⟩ := except_bind_ok hok
    rw [optTruthyInt_falsy d "id" v hget hf] at h1
    injection h1 with h1
    injection hok with hok
    rw [← hok, ← h1]

theorem falsy_optional_ids_normalize_witness :
    Channel.from_data [("id", .vInt 5), ("type", .vInt 0), ("guild_id", .vInt 0)]
        none = .ok { id := 5, type := .vInt 0 } ∧
    Channel.guild_id { id := 5, type := .vInt 0 } = none :=
  ⟨rfl,
   (falsy_optional_ids_normalize
      [("id", .vInt 5), ("type", .vInt 0), ("guild_id", .vInt 0)] none
      (.vInt 0) (Or.inl rfl)).1 _ rfl rfl⟩

/-! ## Claims about capability-bound operations -/

/-- C2: every bound remote operation on an entity whose transport reference
is absent fails immediately with the source's "unbound" RuntimeError
message — `Channel.send`, `Channel.fetch_message`, `Message.reply`,
`Message.edit`, `Message.delete` when `_http` is `None`, and
`Reaction.remove` / `Reaction.clear` when `_http` **or** the attached
`_message` is `None`.  (In this embedding the transport lives behind an
`Option`, so the absent handle is structurally never dereferenced: the
operations return the unbound error without consulting any transport.) -/
theorem unbound_operations :
    (∀ (ch : Channel) content embed embeds files mref, ch._http = none →
        ch.send content embed embeds files mref =
          .error (.unbound "Channel is not bound to an HTTP client")) ∧
    (∀ (ch : Channel) mid, ch._http = none →
        ch.fetch_message mid =
          .error (.unbound "Channel is not bound to an HTTP client")) ∧
    (∀ (m : Message) content, m._http = none →
        m.reply content =
          .error (.unbound "Message is not bound to an HTTP client")) ∧
    (∀ (m : Message) content, m._http = none →
        m.edit content =
          .error (.unbound "Message is not bound to an HTTP client")) ∧
    (∀ (m : Message), m._http = none →
        m.delete =
          .error (.unbound "Message is not bound to an HTTP client")) ∧
    (∀ (r : Reaction) u, r._http = none ∨ r._message = none →
        r.remove u =
          .error (.unbound "Cannot remove reaction without HTTPClient and Message")) ∧
    (∀ (r : Reaction), r._http = none ∨ r._message = none →
        r.clear =
          .error (.unbound "Cannot clear reaction without HTTPClient and Message")) := by
  refine ⟨?_, ?_, ?_, ?_, ?_, ?_, ?_⟩
  · intro ch content embed embeds files mref h
    unfold Channel.send
    rw [h]
  · intro ch mid h
    unfold Channel.fetch_message
    rw [h]
  · intro m content h
    unfold Message.reply
    rw [h]
  · intro m content h
    unfold Message.edit
    rw [h]
  · intro m h
    unfold Message.delete
    rw [h]
  · intro r u h
    unfold Reaction.remove
    rcases h with h | h
    · rw [h]
    · rw [h]
      cases r._http <;> rfl
  · intro r h
    unfold Reaction.clear
    rcases h with h | h
    · rw [h]
    · rw [h]
      cases r._http <;> rfl

theorem unbound_operations_witness :
    Channel.send { id := 1, type := .vInt 0 } none none none none none =
      .error (.unbound "Channel is not bound to an HTTP client") ∧
    Message.delete
        { id := 1, channel_id := 1, author := { id := 1 }, timestamp := .vStr "t" } =
      .error (.unbound "Message is not bound to an HTTP client") ∧
    Reaction.remove { emoji := {} } (.intId 5) =
      .error (.unbound "Cannot remove reaction without HTTPClient and Message") :=
  ⟨unbound_operations.1 { id := 1, type := .vInt 0 } none none none none none rfl,
   unbound_operations.2.2.2.2.1
     { id := 1, channel_id := 1, author := { id := 1 }, timestamp := .vStr "t" } rfl,
   unbound_operations.2.2.2.2.2.1 { emoji := {} } (.intId 5) (Or.inl rfl)⟩

theorem mapM_ok_forall {ε α β : Type} (f : α → Except ε β) :
    ∀ (xs : List α) (ys : List β), xs.mapM f = .ok ys →
      ∀ y ∈ ys, ∃ x, f x = .ok y := by
  intro xs
  induction xs with
  | nil =>
    intro ys h y hy
    rw [List.mapM_nil] at h
    injection h with h
    rw [← h] at hy
    simp at hy
  | cons x xs ih =>
    intro ys h y hy
    rw [List.mapM_cons] at h
    obtain ⟨b, h1, h⟩ := except_bind_ok h
    obtain ⟨bs, h2, h⟩ := except_bind_ok h
    injection h with h
    rw [← h] at hy
    rcases List.mem_cons.mp hy with hyb | hybs
    · exact ⟨x, by rw [h1, hyb]⟩
    · exact ih bs h2 y hybs

/-- C8: for every emoji-list payload returned by the transport,
`Guild.fetch_emojis` hydrates each element with `guild_id` equal to the
guild's own id — the binding layer passes `guild_id=self.id` into every
`Emoji.from_data` call, so the injected id wins even when (in particular
when) the payload omits the `guild_id` field. -/
theorem fetch_emojis_injects_guild_id (g : Guild) (http : HTTPClient)
    (es : List Emoji) (hb : g._http = some http)
    (hok : g.fetch_emojis = .ok es) :
    ∀ e ∈ es, e.guild_id = some g.id := by
  unfold Guild.fetch_emojis at hok
  rw [hb] at hok
  obtain ⟨payloads, h1, hok⟩ := except_bind_ok hok
  intro e he
  obtain ⟨p, hp⟩ := mapM_ok_forall _ payloads es hok e he
  have hp' := mapError_ok hp
  unfold Emoji.from_data at hp'
  obtain ⟨i, hi, hp'⟩ := except_bind_ok hp'
  obtain ⟨gid, hgid, hp'⟩ := except_bind_ok hp'
  injection hgid with hgid
  injection hp' with hp'
  rw [← hp', ← hgid]

/-- A stub transport used to exercise `Guild.fetch_emojis` concretely: its
guild-emoji list returns one payload that omits `guild_id`. -/
def stubHttp : HTTPClient where
  send_message := fun _ _ _ _ _ => .error "stub"
  get_message := fun _ _ => .error "stub"
  edit_message := fun _ _ _ => .error "stub"
  delete_message := fun _ _ => .error "stub"
  delete_reaction := fun _ _ _ _ => .error "stub"
  delete_all_reactions_for_emoji := fun _ _ _ => .error "stub"
  get_guild_emojis := fun _ => .ok [[("id", .vInt 9)]]

theorem fetch_emojis_injects_guild_id_witness :
    Guild.fetch_emojis { id := 42, _http := some stubHttp } =
      .ok [{ id := 9, guild_id := some 42, _http := some stubHttp }] ∧
    Emoji.guild_id { id := 9, guild_id := some 42, _http := some stubHttp } =
      some 42 :=
  ⟨rfl,
   fetch_emojis_injects_guild_id { id := 42, _http := some stubHttp } stubHttp
     [{ id := 9, guild_id := some 42, _http := some stubHttp }] rfl rfl
     { id := 9, guild_id := some 42, _http := some stubHttp } (List.Mem.head _)⟩
